import Mathlib

/-!
Verification of `download_files.py` (Himawari satellite data fetcher).

The script has two components:
* a Key Builder `get_object_name_dict` mapping a datetime and a band
  number to the fields of an S3 object name (plus the bucket name), and
* a Fetcher `download_files_for_date` that loops over bands 1..6,
  formats the object name, and downloads each file whose destination
  path does not already exist locally.

We embed the datetime values, the string formatting (`strftime` fields
and `%02d` padding), the key template, and the download loop (with the
S3 client abstracted as an oracle) and prove the specification claims.
-/

namespace Himawari

/-- A Python `datetime.datetime` value: the seven components used by
comparison and formatting. -/
@[ext]
structure DateTime where
  year : Nat
  month : Nat
  day : Nat
  hour : Nat
  minute : Nat
  second : Nat
  microsecond : Nat
deriving DecidableEq, Repr

/-- Python `datetime` comparison: lexicographic on
(year, month, day, hour, minute, second, microsecond). -/
def dtLt (a b : DateTime) : Bool :=
  if a.year < b.year then true else if b.year < a.year then false
  else if a.month < b.month then true else if b.month < a.month then false
  else if a.day < b.day then true else if b.day < a.day then false
  else if a.hour < b.hour then true else if b.hour < a.hour then false
  else if a.minute < b.minute then true else if b.minute < a.minute then false
  else if a.second < b.second then true else if b.second < a.second then false
  else if a.microsecond < b.microsecond then true else false

/-- The cutover instant `dt.datetime(2022, 10, 28)` (omitted components
default to zero in Python). -/
def cutoverDate : DateTime := ⟨2022, 10, 28, 0, 0, 0, 0⟩

/-- The range constraints Python's `datetime` constructor enforces on its
components (day bound relaxed to 31). -/
def DateTime.Valid (t : DateTime) : Prop :=
  1 ≤ t.year ∧ t.year ≤ 9999 ∧ 1 ≤ t.month ∧ t.month ≤ 12 ∧
  1 ≤ t.day ∧ t.day ≤ 31 ∧ t.hour ≤ 23 ∧ t.minute ≤ 59 ∧
  t.second ≤ 59 ∧ t.microsecond ≤ 999999

instance (t : DateTime) : Decidable t.Valid := by
  unfold DateTime.Valid; infer_instance

/-- Decimal digit characters of `n`, most significant first; the first
argument is recursion fuel (any fuel `≥ n` and `> 0` suffices). -/
def natDecAux : Nat → Nat → List Char
  | 0, _ => []
  | fuel + 1, n =>
    if n < 10 then [Nat.digitChar n]
    else natDecAux fuel (n / 10) ++ [Nat.digitChar (n % 10)]

/-- Decimal string of a natural number, as Python's `str`/`%d` renders it. -/
def natDecimal (n : Nat) : String := ⟨natDecAux (n + 1) n⟩

/-- Zero-padding to (at least) two characters, as Python's `%02d` and the
two-digit `strftime` fields (`%m`, `%d`, `%H`, `%M`) render nonnegative
numbers. -/
def zpad2 (n : Nat) : String := if n < 10 then "0" ++ natDecimal n else natDecimal n

/-- Python `f-string` formatting `f'{i:02d}'` of an integer: nonnegative
numbers are zero-padded to width two; negative numbers render as a minus
sign followed by the decimal magnitude (the sign already fills the width). -/
def int02d (i : Int) : String :=
  if i < 0 then "-" ++ natDecimal i.natAbs else zpad2 i.toNat

/-- `HIMAWARI_8_BUCKET` constant. -/
def HIMAWARI_8_BUCKET : String := "noaa-himawari8"

/-- `HIMAWARI_9_BUCKET` constant. -/
def HIMAWARI_9_BUCKET : String := "noaa-himawari9"

/-- The dictionary returned by `get_object_name_dict`: nine string
values keyed by fixed names. -/
structure ObjectNameDict where
  year : String
  month : String
  day : String
  hour : String
  minute : String
  satellite_code : String
  band : String
  resolution : String
  bucket_name : String
deriving DecidableEq, Repr

/-- `get_object_name_dict(download_datetime, obs_band)`: the Key Builder.
`strftime` fields give the zero-padded date/time parts; the satellite code
and bucket are selected by comparing against `dt.datetime(2022, 10, 28)`;
the band code is `f'B{obs_band:02d}'`; the resolution is `'R10'` for
`obs_band <= 4`, else `'R20'`. -/
def get_object_name_dict (download_datetime : DateTime) (obs_band : Int) :
    ObjectNameDict :=
  let resolution := if obs_band ≤ 4 then "R10" else "R20"
  { year := natDecimal download_datetime.year
    month := zpad2 download_datetime.month
    day := zpad2 download_datetime.day
    hour := zpad2 download_datetime.hour
    minute := zpad2 download_datetime.minute
    satellite_code := if dtLt download_datetime cutoverDate then "H08" else "H09"
    band := "B" ++ int02d obs_band
    resolution := resolution
    bucket_name :=
      if dtLt download_datetime cutoverDate then HIMAWARI_8_BUCKET
      else HIMAWARI_9_BUCKET }

/-- `OBJECT_NAME_PATTERN.format(**d)`: substitution of the dictionary's
fields into the fixed key template
`AHI-L1b-FLDK/{year}/{month}/{day}/{hour}{minute}/HS_{satellite_code}_{year}{month}{day}_{hour}{minute}_{band}_FLDK_{resolution}_S0101.DAT.bz2`. -/
def formatObjectName (d : ObjectNameDict) : String :=
  "AHI-L1b-FLDK/" ++ d.year ++ "/" ++ d.month ++ "/" ++ d.day ++ "/" ++
  d.hour ++ d.minute ++ "/" ++ "HS_" ++ d.satellite_code ++ "_" ++
  d.year ++ d.month ++ d.day ++ "_" ++ d.hour ++ d.minute ++ "_" ++
  d.band ++ "_FLDK_" ++ d.resolution ++ "_S0101.DAT.bz2"

/-- The object name the Fetcher computes for a datetime and band. -/
def objectName (t : DateTime) (b : Int) : String :=
  formatObjectName (get_object_name_dict t b)

/-- `os.path.basename`: everything after the final `'/'` (the whole
string when it has no `'/'`). -/
def basename (s : String) : String :=
  ⟨(s.data.reverse.takeWhile (fun c => c ≠ '/')).reverse⟩

/-- `DATA_DIR` constant (`Path("data")`). -/
def DATA_DIR : String := "data"

/-- `DATA_DIR / os.path.basename(object_name)`: the local destination
path for a band's file. -/
def destPath (t : DateTime) (b : Int) : String :=
  DATA_DIR ++ "/" ++ basename (objectName t b)

/-- The local filesystem state: an association list from paths to file
contents (byte lists). Only the files the script reads or writes matter. -/
abbrev FS := List (String × List Nat)

/-- `os.path.exists` / reading a file: first matching entry. -/
def fsLookup (fs : FS) (p : String) : Option (List Nat) :=
  match fs with
  | [] => none
  | (q, c) :: rest => if p = q then some c else fsLookup rest p

/-- Writing a file (`open(path, 'wb')` followed by writing the bytes):
the new entry shadows any old one. -/
def fsWrite (fs : FS) (p : String) (c : List Nat) : FS := (p, c) :: fs

/-- Outcome of one `s3_client.download_fileobj(bucket, key, f)` call:
either the full object bytes, or an exception carrying an error code,
with the bytes already streamed into the open file before the failure
(possibly none). -/
inductive DlResult where
  | success (bytes : List Nat)
  | failure (errCode : Nat) (written : List Nat)
deriving Repr, DecidableEq

/-- The S3 client abstracted: what `download_fileobj` does for a given
bucket name and object key. -/
abbrev Oracle := String → String → DlResult

/-- `range(1, 7)`: the bands the Fetcher iterates over. -/
def bandRange : List Int := [1, 2, 3, 4, 5, 6]

/-- The body of `download_files_for_date`'s loop, over a list of bands:
for each band, build the object name, compute the destination path, skip
if it exists, otherwise open the file and download into it.  Returns the
final filesystem, the list of bands for which a download was attempted,
and `some errCode` when a download raised (aborting the loop, with the
partially written file left on disk). -/
def fetchLoop (oracle : Oracle) (t : DateTime) :
    List Int → FS → List Int → FS × List Int × Option Nat
  | [], fs, att => (fs, att.reverse, none)
  | b :: rest, fs, att =>
    let d := get_object_name_dict t b
    let object_name := formatObjectName d
    let output_file_name := DATA_DIR ++ "/" ++ basename object_name
    if (fsLookup fs output_file_name).isSome then
      fetchLoop oracle t rest fs att
    else
      match oracle d.bucket_name object_name with
      | DlResult.success bytes =>
          fetchLoop oracle t rest (fsWrite fs output_file_name bytes) (b :: att)
      | DlResult.failure e w =>
          (fsWrite fs output_file_name w, (b :: att).reverse, some e)

/-- `download_files_for_date(download_datetime, s3_client)` acting on the
local filesystem state. -/
def download_files_for_date (oracle : Oracle) (download_datetime : DateTime)
    (fs : FS) : FS × List Int × Option Nat :=
  fetchLoop oracle download_datetime bandRange fs []

/-- `EXAMPLE_DATE = dt.datetime(2024, 4, 2, 16, 0, 0)`. -/
def EXAMPLE_DATE : DateTime := ⟨2024, 4, 2, 16, 0, 0, 0⟩

/-- Two datetimes select the same satellite epoch. -/
def sameEpoch (t₁ t₂ : DateTime) : Prop :=
  dtLt t₁ cutoverDate = dtLt t₂ cutoverDate

instance (t₁ t₂ : DateTime) : Decidable (sameEpoch t₁ t₂) := by
  unfold sameEpoch; infer_instance

/-- Numeric value of a decimal digit character. -/
def charVal (c : Char) : Nat := c.toNat - 48

/-- Parse a digit string back to the number it denotes. -/
def parseNat (l : List Char) : Nat := l.foldl (fun a c => a * 10 + charVal c) 0

lemma charVal_digitChar {d : Nat} (h : d < 10) : charVal (Nat.digitChar d) = d := by
  interval_cases d <;> rfl

lemma parseNat_append_singleton (l : List Char) (c : Char) :
    parseNat (l ++ [c]) = parseNat l * 10 + charVal c := by
  simp [parseNat, List.foldl_append]

lemma parseNat_natDecAux : ∀ (fuel n : Nat), n < fuel →
    parseNat (natDecAux fuel n) = n := by
  intro fuel
  induction fuel with
  | zero => intro n h; omega
  | succ f ih =>
    intro n h
    by_cases h10 : n < 10
    · simp only [natDecAux, if_pos h10, parseNat, List.foldl_cons, List.foldl_nil]
      simpa using charVal_digitChar h10
    · have hdiv : n / 10 < f := by
        have := Nat.div_lt_self (by omega : 0 < n) (by omega : 1 < 10)
        omega
      simp only [natDecAux, if_neg h10, parseNat_append_singleton, ih _ hdiv,
        charVal_digitChar (Nat.mod_lt n (by omega))]
      omega

lemma parseNat_natDecimal (n : Nat) : parseNat (natDecimal n).data = n :=
  parseNat_natDecAux (n + 1) n (Nat.lt_succ_self n)

lemma natDecimal_injective : Function.Injective natDecimal := by
  intro a b h
  have : parseNat (natDecimal a).data = parseNat (natDecimal b).data := by rw [h]
  rwa [parseNat_natDecimal, parseNat_natDecimal] at this

lemma parseNat_zpad2 (n : Nat) : parseNat (zpad2 n).data = n := by
  unfold zpad2
  by_cases h : n < 10
  · rw [if_pos h]
    have hdata : ("0" ++ natDecimal n).data = '0' :: (natDecimal n).data := by
      rw [String.data_append]; rfl
    rw [hdata]
    have : parseNat ('0' :: (natDecimal n).data) = parseNat (natDecimal n).data := by
      simp [parseNat, charVal]
    rw [this, parseNat_natDecimal]
  · rw [if_neg h, parseNat_natDecimal]

lemma zpad2_injective : Function.Injective zpad2 := by
  intro a b h
  have : parseNat (zpad2 a).data = parseNat (zpad2 b).data := by rw [h]
  rwa [parseNat_zpad2, parseNat_zpad2] at this

/-- Every character of `natDecAux` output is a decimal digit character. -/
lemma natDecAux_digits : ∀ (fuel n : Nat) (c : Char), c ∈ natDecAux fuel n →
    ∃ d, d < 10 ∧ c = Nat.digitChar d := by
  intro fuel
  induction fuel with
  | zero => intro n c h; simp [natDecAux] at h
  | succ f ih =>
    intro n c h
    by_cases h10 : n < 10
    · simp only [natDecAux, if_pos h10, List.mem_singleton] at h
      exact ⟨n, h10, h⟩
    · simp only [natDecAux, if_neg h10, List.mem_append, List.mem_singleton] at h
      rcases h with h | h
      · exact ih _ _ h
      · exact ⟨n % 10, Nat.mod_lt n (by omega), h⟩

lemma natDecimal_digits {n : Nat} {c : Char} (h : c ∈ (natDecimal n).data) :
    ∃ d, d < 10 ∧ c = Nat.digitChar d :=
  natDecAux_digits (n + 1) n c h

lemma zpad2_digits {n : Nat} {c : Char} (h : c ∈ (zpad2 n).data) :
    ∃ d, d < 10 ∧ c = Nat.digitChar d := by
  unfold zpad2 at h
  by_cases h10 : n < 10
  · rw [if_pos h10] at h
    rw [show ("0" ++ natDecimal n).data = '0' :: (natDecimal n).data from by
      rw [String.data_append]; rfl] at h
    rcases List.mem_cons.mp h with h | h
    · exact ⟨0, by omega, h⟩
    · exact natDecimal_digits h
  · rw [if_neg h10] at h; exact natDecimal_digits h

lemma digitChar_ne_slash {d : Nat} (h : d < 10) : Nat.digitChar d ≠ '/' := by
  interval_cases d <;> decide

lemma digitChar_ne_underscore {d : Nat} (h : d < 10) : Nat.digitChar d ≠ '_' := by
  interval_cases d <;> decide

lemma digitChar_ne_minus {d : Nat} (h : d < 10) : Nat.digitChar d ≠ '-' := by
  interval_cases d <;> decide

lemma natDecimal_no_slash {n : Nat} : '/' ∉ (natDecimal n).data := by
  intro h
  obtain ⟨d, hd, hc⟩ := natDecimal_digits h
  exact digitChar_ne_slash hd hc.symm

lemma zpad2_no_slash {n : Nat} : '/' ∉ (zpad2 n).data := by
  intro h
  obtain ⟨d, hd, hc⟩ := zpad2_digits h
  exact digitChar_ne_slash hd hc.symm

/-- A fuel-positive call on a small number yields the single digit. -/
lemma natDecAux_small {fuel n : Nat} (hf : 0 < fuel) (h : n < 10) :
    natDecAux fuel n = [Nat.digitChar n] := by
  cases fuel with
  | zero => omega
  | succ f => simp [natDecAux, h]

lemma natDecimal_two {n : Nat} (h10 : 10 ≤ n) (h100 : n < 100) :
    (natDecimal n).data = [Nat.digitChar (n / 10), Nat.digitChar (n % 10)] := by
  show natDecAux (n + 1) n = _
  rw [show n + 1 = (n - 1) + 1 + 1 from by omega]
  rw [show natDecAux ((n - 1) + 1 + 1) n =
    natDecAux ((n - 1) + 1) (n / 10) ++ [Nat.digitChar (n % 10)] from by
      simp [natDecAux, show ¬ n < 10 from by omega]]
  rw [natDecAux_small (by omega) (by omega)]
  rfl

lemma zpad2_eq {n : Nat} (h : n < 100) :
    (zpad2 n).data = [Nat.digitChar (n / 10), Nat.digitChar (n % 10)] := by
  unfold zpad2
  by_cases h10 : n < 10
  · rw [if_pos h10]
    rw [String.data_append]
    show '0' :: (natDecimal n).data = _
    rw [show (natDecimal n).data = [Nat.digitChar n] from natDecAux_small (by omega) h10]
    rw [show n / 10 = 0 from by omega, show n % 10 = n from by omega]
    rfl
  · rw [if_neg h10]
    exact natDecimal_two (by omega) h

lemma zpad2_length {n : Nat} (h : n < 100) : (zpad2 n).data.length = 2 := by
  rw [zpad2_eq h]; rfl


/-- Splitting on a separator character: if neither left part contains the
separator, equal concatenations have equal parts. -/
lemma sep_split (sep : Char) : ∀ (l₁ l₂ r₁ r₂ : List Char), sep ∉ l₁ → sep ∉ l₂ →
    l₁ ++ sep :: r₁ = l₂ ++ sep :: r₂ → l₁ = l₂ ∧ r₁ = r₂ := by
  intro l₁
  induction l₁ with
  | nil =>
    intro l₂ r₁ r₂ _ h₂ heq
    cases l₂ with
    | nil => simpa using heq
    | cons c t =>
      simp only [List.nil_append, List.cons_append, List.cons.injEq] at heq
      exact absurd (heq.1 ▸ List.mem_cons_self c t) h₂
  | cons c t ih =>
    intro l₂ r₁ r₂ h₁ h₂ heq
    cases l₂ with
    | nil =>
      simp only [List.nil_append, List.cons_append, List.cons.injEq] at heq
      exact absurd (heq.1 ▸ List.mem_cons_self c t) (heq.1 ▸ h₁)
    | cons c' t' =>
      simp only [List.cons_append, List.cons.injEq] at heq
      obtain ⟨hc, htl⟩ := heq
      obtain ⟨h₃, h₄⟩ := ih t' r₁ r₂ (fun h => h₁ (List.mem_cons_of_mem c h))
        (fun h => h₂ (List.mem_cons_of_mem c' h)) htl
      exact ⟨by rw [hc, h₃], h₄⟩

lemma str_append_cancel_left {x a b : String} (h : x ++ a = x ++ b) : a = b := by
  apply String.ext
  have := congrArg String.data h
  rw [String.data_append, String.data_append] at this
  exact List.append_cancel_left this

lemma takeWhile_all_append {p : Char → Bool} :
    ∀ (l : List Char) (x : Char) (r : List Char), (∀ c ∈ l, p c = true) → p x = false →
    (l ++ x :: r).takeWhile p = l := by
  intro l
  induction l with
  | nil => intro x r _ hx; simp [List.takeWhile, hx]
  | cons c t ih =>
    intro x r hl hx
    have hc : p c = true := hl c (List.mem_cons_self c t)
    simp only [List.cons_append, List.takeWhile_cons, hc, if_true]
    rw [ih x r (fun d hd => hl d (List.mem_cons_of_mem c hd)) hx]

/-- `basename` on a path split at its last slash returns the file part. -/
lemma basename_split {d f : List Char} (hf : '/' ∉ f) :
    basename ⟨d ++ '/' :: f⟩ = ⟨f⟩ := by
  unfold basename
  congr 1
  show ((d ++ '/' :: f).reverse.takeWhile (fun c => c ≠ '/')).reverse = f
  rw [List.reverse_append, List.reverse_cons]
  rw [show f.reverse ++ ['/'] ++ d.reverse = f.reverse ++ '/' :: d.reverse from by
    rw [List.append_assoc]; rfl]
  rw [takeWhile_all_append f.reverse '/' d.reverse
    (fun c hc => by
      simp only [decide_eq_true_eq, ne_eq]
      intro h; exact hf (h ▸ List.mem_reverse.mp hc))
    (by simp)]
  exact List.reverse_reverse f

lemma int02d_no_slash {i : Int} : '/' ∉ (int02d i).data := by
  unfold int02d
  by_cases h : i < 0
  · rw [if_pos h]
    rw [show ("-" ++ natDecimal i.natAbs).data = '-' :: (natDecimal i.natAbs).data from by
      rw [String.data_append]; rfl]
    intro hm
    rcases List.mem_cons.mp hm with hm | hm
    · exact absurd hm.symm (by decide)
    · exact natDecimal_no_slash hm
  · rw [if_neg h]; exact zpad2_no_slash

/-- The satellite-code string for a datetime. -/
def satCode (t : DateTime) : String :=
  if dtLt t cutoverDate then "H08" else "H09"

/-- The resolution string for a band. -/
def resCode (b : Int) : String := if b ≤ 4 then "R10" else "R20"

/-- The directory part of the object name. -/
def keyDir (t : DateTime) : String :=
  "AHI-L1b-FLDK/" ++ natDecimal t.year ++ "/" ++ zpad2 t.month ++ "/" ++
  zpad2 t.day ++ "/" ++ zpad2 t.hour ++ zpad2 t.minute

/-- The file part of the object name (after the last slash). -/
def keyFile (t : DateTime) (b : Int) : String :=
  "HS_" ++ satCode t ++ "_" ++ natDecimal t.year ++ zpad2 t.month ++ zpad2 t.day ++
  "_" ++ zpad2 t.hour ++ zpad2 t.minute ++ "_" ++ ("B" ++ int02d b) ++ "_FLDK_" ++
  resCode b ++ "_S0101.DAT.bz2"

lemma objectName_split (t : DateTime) (b : Int) :
    objectName t b = keyDir t ++ "/" ++ keyFile t b := by
  apply String.ext
  simp [objectName, formatObjectName, get_object_name_dict, keyDir, keyFile,
    satCode, resCode, String.data_append, List.append_assoc]

lemma satCode_no_slash (t : DateTime) : '/' ∉ (satCode t).data := by
  unfold satCode
  by_cases h : dtLt t cutoverDate = true
  · rw [if_pos h]; decide
  · rw [if_neg h]; decide

lemma resCode_no_slash (b : Int) : '/' ∉ (resCode b).data := by
  unfold resCode
  by_cases h : b ≤ 4
  · rw [if_pos h]; decide
  · rw [if_neg h]; decide

lemma no_slash_append {a b : List Char} (ha : '/' ∉ a) (hb : '/' ∉ b) :
    '/' ∉ a ++ b := fun h => (List.mem_append.mp h).elim ha hb

lemma keyFile_no_slash (t : DateTime) (b : Int) : '/' ∉ (keyFile t b).data := by
  unfold keyFile
  simp only [String.data_append]
  repeat' apply no_slash_append
  all_goals first
    | decide
    | exact natDecimal_no_slash
    | exact zpad2_no_slash
    | exact satCode_no_slash t
    | exact resCode_no_slash b
    | exact int02d_no_slash

lemma basename_objectName (t : DateTime) (b : Int) :
    basename (objectName t b) = keyFile t b := by
  rw [objectName_split]
  rw [show keyDir t ++ "/" ++ keyFile t b = ⟨(keyDir t).data ++ '/' :: (keyFile t b).data⟩ from by
    apply String.ext; simp [String.data_append]]
  exact basename_split (keyFile_no_slash t b)

lemma destPath_eq (t : DateTime) (b : Int) :
    destPath t b = "data/" ++ keyFile t b := by
  unfold destPath DATA_DIR
  rw [basename_objectName]
  apply String.ext
  simp [String.data_append]


/-- The band-independent head of the object file name. -/
def keyHead (t : DateTime) : String :=
  "HS_" ++ satCode t ++ "_" ++ natDecimal t.year ++ zpad2 t.month ++ zpad2 t.day ++
  "_" ++ zpad2 t.hour ++ zpad2 t.minute ++ "_"

/-- The band-determined tail of the object file name. -/
def bandTail (b : Int) : String :=
  "B" ++ int02d b ++ "_FLDK_" ++ resCode b ++ "_S0101.DAT.bz2"

lemma keyFile_decomp (t : DateTime) (b : Int) :
    keyFile t b = keyHead t ++ bandTail b := by
  apply String.ext
  simp [keyFile, keyHead, bandTail, String.data_append, List.append_assoc]

lemma destPath_ne {t : DateTime} {b b' : Int} (h : bandTail b ≠ bandTail b') :
    destPath t b ≠ destPath t b' := by
  rw [destPath_eq, destPath_eq, keyFile_decomp, keyFile_decomp]
  intro heq
  apply h
  apply str_append_cancel_left (x := "data/" ++ keyHead t)
  apply String.ext
  have := congrArg String.data heq
  simp only [String.data_append, List.append_assoc] at this ⊢
  exact this

lemma bandTail_pairwise_ne :
    List.Pairwise (fun a b => bandTail a ≠ bandTail b) bandRange := by decide

lemma destPath_pairwise_ne (t : DateTime) :
    List.Pairwise (fun a b => destPath t a ≠ destPath t b) bandRange :=
  bandTail_pairwise_ne.imp (fun h => destPath_ne h)


lemma fsLookup_fsWrite (fs : FS) (p : String) (c : List Nat) (q : String) :
    fsLookup (fsWrite fs p c) q = if q = p then some c else fsLookup fs q := rfl

lemma fetchLoop_nil (oracle : Oracle) (t : DateTime) (fs : FS) (att : List Int) :
    fetchLoop oracle t [] fs att = (fs, att.reverse, none) := rfl

lemma fetchLoop_cons (oracle : Oracle) (t : DateTime) (b : Int) (rest : List Int)
    (fs : FS) (att : List Int) :
    fetchLoop oracle t (b :: rest) fs att =
    if (fsLookup fs (destPath t b)).isSome then fetchLoop oracle t rest fs att
    else match oracle (get_object_name_dict t b).bucket_name (objectName t b) with
      | DlResult.success bytes =>
          fetchLoop oracle t rest (fsWrite fs (destPath t b) bytes) (b :: att)
      | DlResult.failure e w =>
          (fsWrite fs (destPath t b) w, (b :: att).reverse, some e) := rfl

lemma fetchLoop_cons_skip (oracle : Oracle) (t : DateTime) (b : Int) (rest : List Int)
    (fs : FS) (att : List Int) (hex : (fsLookup fs (destPath t b)).isSome) :
    fetchLoop oracle t (b :: rest) fs att = fetchLoop oracle t rest fs att := by
  rw [fetchLoop_cons, if_pos hex]

lemma fetchLoop_cons_success (oracle : Oracle) (t : DateTime) (b : Int) (rest : List Int)
    (fs : FS) (att : List Int) (bytes : List Nat)
    (hex : ¬ (fsLookup fs (destPath t b)).isSome)
    (h : oracle (get_object_name_dict t b).bucket_name (objectName t b) =
      DlResult.success bytes) :
    fetchLoop oracle t (b :: rest) fs att =
      fetchLoop oracle t rest (fsWrite fs (destPath t b) bytes) (b :: att) := by
  rw [fetchLoop_cons, if_neg hex, h]

lemma fetchLoop_cons_failure (oracle : Oracle) (t : DateTime) (b : Int) (rest : List Int)
    (fs : FS) (att : List Int) (e : Nat) (w : List Nat)
    (hex : ¬ (fsLookup fs (destPath t b)).isSome)
    (h : oracle (get_object_name_dict t b).bucket_name (objectName t b) =
      DlResult.failure e w) :
    fetchLoop oracle t (b :: rest) fs att =
      (fsWrite fs (destPath t b) w, (b :: att).reverse, some e) := by
  rw [fetchLoop_cons, if_neg hex, h]

/-- The attempt accumulator only prepends: a run from accumulator `att`
is the run from `[]` with `att.reverse` prefixed to the attempt list. -/
lemma fetchLoop_att_shift (oracle : Oracle) (t : DateTime) :
    ∀ (bands : List Int) (fs : FS) (att : List Int),
    fetchLoop oracle t bands fs att =
      ((fetchLoop oracle t bands fs []).1,
       att.reverse ++ (fetchLoop oracle t bands fs []).2.1,
       (fetchLoop oracle t bands fs []).2.2) := by
  intro bands
  induction bands with
  | nil => intro fs att; simp [fetchLoop_nil]
  | cons b rest ih =>
    intro fs att
    by_cases hex : (fsLookup fs (destPath t b)).isSome
    · rw [fetchLoop_cons_skip oracle t b rest fs att hex,
          fetchLoop_cons_skip oracle t b rest fs [] hex, ih fs att]
    · cases horacle : oracle (get_object_name_dict t b).bucket_name (objectName t b) with
      | success bytes =>
        rw [fetchLoop_cons_success oracle t b rest fs att bytes hex horacle,
            fetchLoop_cons_success oracle t b rest fs [] bytes hex horacle,
            ih (fsWrite fs (destPath t b) bytes) (b :: att),
            ih (fsWrite fs (destPath t b) bytes) [b]]
        simp
      | failure e w =>
        rw [fetchLoop_cons_failure oracle t b rest fs att e w hex horacle,
            fetchLoop_cons_failure oracle t b rest fs [] e w hex horacle]
        simp

/-- When every band's destination already exists, the loop does nothing. -/
lemma fetchLoop_all_present (oracle : Oracle) (t : DateTime) :
    ∀ (bands : List Int) (fs : FS),
    (∀ b ∈ bands, (fsLookup fs (destPath t b)).isSome) →
    fetchLoop oracle t bands fs [] = (fs, [], none) := by
  intro bands
  induction bands with
  | nil => intro fs _; rfl
  | cons b rest ih =>
    intro fs h
    rw [fetchLoop_cons_skip oracle t b rest fs [] (h b (List.mem_cons_self b rest))]
    exact ih fs (fun b' hb' => h b' (List.mem_cons_of_mem b hb'))

/-- A run never deletes a file. -/
lemma fetchLoop_preserves (oracle : Oracle) (t : DateTime) :
    ∀ (bands : List Int) (fs : FS) (p : String),
    (fsLookup fs p).isSome →
    (fsLookup (fetchLoop oracle t bands fs []).1 p).isSome := by
  intro bands
  induction bands with
  | nil => intro fs p h; exact h
  | cons b rest ih =>
    intro fs p h
    by_cases hex : (fsLookup fs (destPath t b)).isSome
    · rw [fetchLoop_cons_skip oracle t b rest fs [] hex]; exact ih fs p h
    · have hw : ∀ c : List Nat,
          (fsLookup (fsWrite fs (destPath t b) c) p).isSome := by
        intro c
        rw [fsLookup_fsWrite]
        by_cases hp : p = destPath t b
        · rw [if_pos hp]; rfl
        · rw [if_neg hp]; exact h
      cases horacle : oracle (get_object_name_dict t b).bucket_name (objectName t b) with
      | success bytes =>
        rw [fetchLoop_cons_success oracle t b rest fs [] bytes hex horacle,
            fetchLoop_att_shift]
        exact ih _ p (hw bytes)
      | failure e w =>
        rw [fetchLoop_cons_failure oracle t b rest fs [] e w hex horacle]
        exact hw w

/-- Paths that are no band's destination are untouched by a run. -/
lemma fetchLoop_frame (oracle : Oracle) (t : DateTime) :
    ∀ (bands : List Int) (fs : FS) (p : String),
    (∀ b ∈ bands, destPath t b ≠ p) →
    fsLookup (fetchLoop oracle t bands fs []).1 p = fsLookup fs p := by
  intro bands
  induction bands with
  | nil => intro fs p _; rfl
  | cons b rest ih =>
    intro fs p h
    have hbp : destPath t b ≠ p := h b (List.mem_cons_self b rest)
    have hrest : ∀ b' ∈ rest, destPath t b' ≠ p :=
      fun b' hb' => h b' (List.mem_cons_of_mem b hb')
    by_cases hex : (fsLookup fs (destPath t b)).isSome
    · rw [fetchLoop_cons_skip oracle t b rest fs [] hex]; exact ih fs p hrest
    · cases horacle : oracle (get_object_name_dict t b).bucket_name (objectName t b) with
      | success bytes =>
        rw [fetchLoop_cons_success oracle t b rest fs [] bytes hex horacle,
            fetchLoop_att_shift]
        rw [ih _ p hrest, fsLookup_fsWrite, if_neg (fun hp => hbp hp.symm)]
      | failure e w =>
        rw [fetchLoop_cons_failure oracle t b rest fs [] e w hex horacle]
        simp only [fsLookup_fsWrite]
        rw [if_neg (fun hp => hbp hp.symm)]

/-- Only listed bands are ever attempted. -/
lemma fetchLoop_att_sub (oracle : Oracle) (t : DateTime) :
    ∀ (bands : List Int) (fs : FS),
    (fetchLoop oracle t bands fs []).2.1 ⊆ bands := by
  intro bands
  induction bands with
  | nil => intro fs; simp [fetchLoop_nil]
  | cons b rest ih =>
    intro fs
    by_cases hex : (fsLookup fs (destPath t b)).isSome
    · rw [fetchLoop_cons_skip oracle t b rest fs [] hex]
      exact (ih fs).trans (List.subset_cons_self b rest)
    · cases horacle : oracle (get_object_name_dict t b).bucket_name (objectName t b) with
      | success bytes =>
        rw [fetchLoop_cons_success oracle t b rest fs [] bytes hex horacle,
            fetchLoop_att_shift]
        intro x hx
        simp only [List.reverse_cons, List.reverse_nil, List.nil_append] at hx
        rcases List.mem_append.mp hx with hx | hx
        · rw [List.mem_singleton.mp hx]; exact List.mem_cons_self b rest
        · exact List.mem_cons_of_mem b (ih _ hx)
      | failure e w =>
        rw [fetchLoop_cons_failure oracle t b rest fs [] e w hex horacle]
        intro x hx
        simp only [List.reverse_cons, List.reverse_nil, List.nil_append] at hx
        rw [List.mem_singleton.mp hx]
        exact List.mem_cons_self b rest


/-- With all destinations absent and a fully successful oracle, the loop
downloads every band in order and afterwards every destination exists. -/
lemma fetchLoop_all_absent (oracle : Oracle) (t : DateTime)
    (hok : ∀ bkt key, ∃ bytes, oracle bkt key = DlResult.success bytes) :
    ∀ (bands : List Int) (fs : FS),
    List.Pairwise (fun a b => destPath t a ≠ destPath t b) bands →
    (∀ b ∈ bands, fsLookup fs (destPath t b) = none) →
    (fetchLoop oracle t bands fs []).2.1 = bands ∧
    (fetchLoop oracle t bands fs []).2.2 = none ∧
    (∀ b ∈ bands, (fsLookup (fetchLoop oracle t bands fs []).1 (destPath t b)).isSome) ∧
    (∀ p, (fsLookup fs p).isSome →
      (fsLookup (fetchLoop oracle t bands fs []).1 p).isSome) := by
  intro bands
  induction bands with
  | nil =>
    intro fs _ _
    refine ⟨rfl, rfl, by simp, fun p h => h⟩
  | cons b rest ih =>
    intro fs hpw habs
    have hex : ¬ (fsLookup fs (destPath t b)).isSome := by
      rw [habs b (List.mem_cons_self b rest)]; simp
    obtain ⟨bytes, hbytes⟩ :=
      hok (get_object_name_dict t b).bucket_name (objectName t b)
    have hstep := fetchLoop_cons_success oracle t b rest fs [] bytes hex hbytes
    have hpw' := (List.pairwise_cons.mp hpw).2
    have hne : ∀ x ∈ rest, destPath t b ≠ destPath t x :=
      (List.pairwise_cons.mp hpw).1
    have habs' : ∀ x ∈ rest, fsLookup (fsWrite fs (destPath t b) bytes) (destPath t x) = none := by
      intro x hx
      rw [fsLookup_fsWrite, if_neg (fun hp => hne x hx hp.symm)]
      exact habs x (List.mem_cons_of_mem b hx)
    obtain ⟨iha, ihe, ihp, ihpres⟩ := ih (fsWrite fs (destPath t b) bytes) hpw' habs'
    rw [hstep, fetchLoop_att_shift]
    refine ⟨by simp [iha], by simp [ihe], ?_, ?_⟩
    · intro x hx
      rcases List.mem_cons.mp hx with hx | hx
      · subst hx
        apply ihpres
        rw [fsLookup_fsWrite, if_pos rfl]; rfl
      · exact ihp x hx
    · intro p hp
      apply ihpres
      rw [fsLookup_fsWrite]
      by_cases hpb : p = destPath t b
      · rw [if_pos hpb]; rfl
      · rw [if_neg hpb]; exact hp

/-- A band whose destination already exists is skipped: it is never
attempted and its file contents are untouched. -/
lemma fetchLoop_skip (oracle : Oracle) (t : DateTime) :
    ∀ (bands : List Int) (fs : FS) (b : Int) (c : List Nat),
    List.Pairwise (fun a b => destPath t a ≠ destPath t b) bands →
    b ∈ bands →
    fsLookup fs (destPath t b) = some c →
    b ∉ (fetchLoop oracle t bands fs []).2.1 ∧
    fsLookup (fetchLoop oracle t bands fs []).1 (destPath t b) = some c := by
  intro bands
  induction bands with
  | nil => intro fs b c _ hb; exact absurd hb (List.not_mem_nil b)
  | cons a rest ih =>
    intro fs b c hpw hb hc
    have hne : ∀ x ∈ rest, destPath t a ≠ destPath t x :=
      (List.pairwise_cons.mp hpw).1
    have hpw' := (List.pairwise_cons.mp hpw).2
    rcases List.mem_cons.mp hb with hb | hb
    · subst hb
      have hex : (fsLookup fs (destPath t b)).isSome := by rw [hc]; rfl
      rw [fetchLoop_cons_skip oracle t b rest fs [] hex]
      have hnotin : b ∉ rest := by
        intro hmem
        exact hne b hmem rfl
      constructor
      · intro hmem
        exact hnotin (fetchLoop_att_sub oracle t rest fs hmem)
      · rw [fetchLoop_frame oracle t rest fs (destPath t b)
          (fun x hx => (hne x hx).symm)]
        exact hc
    · have hba : destPath t a ≠ destPath t b := hne b hb
      have hab : a ≠ b := fun h => hba (by rw [h])
      by_cases hex : (fsLookup fs (destPath t a)).isSome
      · rw [fetchLoop_cons_skip oracle t a rest fs [] hex]
        exact ih fs b c hpw' hb hc
      · cases horacle : oracle (get_object_name_dict t a).bucket_name (objectName t a) with
        | success bytes =>
          rw [fetchLoop_cons_success oracle t a rest fs [] bytes hex horacle,
              fetchLoop_att_shift]
          have hc' : fsLookup (fsWrite fs (destPath t a) bytes) (destPath t b) = some c := by
            rw [fsLookup_fsWrite, if_neg (fun hp => hba hp.symm)]
            exact hc
          obtain ⟨ih1, ih2⟩ := ih (fsWrite fs (destPath t a) bytes) b c hpw' hb hc'
          refine ⟨?_, by simpa using ih2⟩
          intro hmem
          simp only [List.reverse_cons, List.reverse_nil, List.nil_append] at hmem
          rcases List.mem_append.mp hmem with hmem | hmem
          · exact hab (List.mem_singleton.mp hmem).symm
          · exact ih1 hmem
        | failure e w =>
          rw [fetchLoop_cons_failure oracle t a rest fs [] e w hex horacle]
          constructor
          · intro hmem
            simp only [List.reverse_cons, List.reverse_nil, List.nil_append] at hmem
            exact hab (List.mem_singleton.mp hmem).symm
          · show fsLookup (fsWrite fs (destPath t a) w) (destPath t b) = some c
            rw [fsLookup_fsWrite, if_neg (fun hp => hba hp.symm)]
            exact hc

/-- Every attempted band's destination was absent at the start of the run. -/
lemma fetchLoop_attempted_absent (oracle : Oracle) (t : DateTime) :
    ∀ (bands : List Int) (fs : FS) (b : Int),
    b ∈ (fetchLoop oracle t bands fs []).2.1 →
    fsLookup fs (destPath t b) = none := by
  intro bands
  induction bands with
  | nil => intro fs b hb; simp [fetchLoop_nil] at hb
  | cons a rest ih =>
    intro fs b hb
    by_cases hex : (fsLookup fs (destPath t a)).isSome
    · rw [fetchLoop_cons_skip oracle t a rest fs [] hex] at hb
      exact ih fs b hb
    · have habs : fsLookup fs (destPath t a) = none := by
        cases h : fsLookup fs (destPath t a) with
        | none => rfl
        | some c => rw [h] at hex; exact absurd rfl hex
      cases horacle : oracle (get_object_name_dict t a).bucket_name (objectName t a) with
      | success bytes =>
        rw [fetchLoop_cons_success oracle t a rest fs [] bytes hex horacle,
            fetchLoop_att_shift] at hb
        simp only [List.reverse_cons, List.reverse_nil, List.nil_append] at hb
        rcases List.mem_append.mp hb with hb | hb
        · rw [List.mem_singleton.mp hb]; exact habs
        · have := ih (fsWrite fs (destPath t a) bytes) b hb
          rw [fsLookup_fsWrite] at this
          by_cases hpb : destPath t b = destPath t a
          · rw [if_pos hpb] at this; exact absurd this (by simp)
          · rw [if_neg hpb] at this; exact this
      | failure e w =>
        rw [fetchLoop_cons_failure oracle t a rest fs [] e w hex horacle] at hb
        simp only [List.reverse_cons, List.reverse_nil, List.nil_append] at hb
        rw [List.mem_singleton.mp hb]
        exact habs


/-- When the oracle fails on band `b` and succeeds on every band listed
before it, the loop attempts exactly the bands through `b`, propagates the
error, and leaves the partially written bytes at `b`'s destination. -/
lemma fetchLoop_fail (oracle : Oracle) (t : DateTime) (b : Int) (e : Nat)
    (w : List Nat)
    (hfail : oracle (get_object_name_dict t b).bucket_name (objectName t b) =
      DlResult.failure e w) :
    ∀ (pre : List Int) (post : List Int) (fs : FS),
    List.Pairwise (fun x y => destPath t x ≠ destPath t y) (pre ++ b :: post) →
    (∀ x ∈ pre ++ b :: post, fsLookup fs (destPath t x) = none) →
    (∀ x ∈ pre, ∃ bytes,
      oracle (get_object_name_dict t x).bucket_name (objectName t x) =
        DlResult.success bytes) →
    (fetchLoop oracle t (pre ++ b :: post) fs []).2.1 = pre ++ [b] ∧
    (fetchLoop oracle t (pre ++ b :: post) fs []).2.2 = some e ∧
    fsLookup (fetchLoop oracle t (pre ++ b :: post) fs []).1 (destPath t b) =
      some w := by
  intro pre
  induction pre with
  | nil =>
    intro post fs _ habs _
    have hex : ¬ (fsLookup fs (destPath t b)).isSome := by
      rw [habs b (List.mem_cons_self b post)]; simp
    rw [List.nil_append,
        fetchLoop_cons_failure oracle t b post fs [] e w hex hfail]
    refine ⟨rfl, rfl, ?_⟩
    show fsLookup (fsWrite fs (destPath t b) w) (destPath t b) = some w
    rw [fsLookup_fsWrite, if_pos rfl]
  | cons a pre' ih =>
    intro post fs hpw habs hok
    have hpw0 : List.Pairwise (fun x y => destPath t x ≠ destPath t y)
        (a :: (pre' ++ b :: post)) := by
      rw [List.cons_append] at hpw; exact hpw
    have hne : ∀ x ∈ pre' ++ b :: post, destPath t a ≠ destPath t x :=
      (List.pairwise_cons.mp hpw0).1
    have hpw' : List.Pairwise (fun x y => destPath t x ≠ destPath t y)
        (pre' ++ b :: post) :=
      (List.pairwise_cons.mp hpw0).2
    have hex : ¬ (fsLookup fs (destPath t a)).isSome := by
      rw [habs a (List.mem_cons_self a (pre' ++ b :: post))]; simp
    obtain ⟨bytes, hbytes⟩ := hok a (List.mem_cons_self a pre')
    rw [List.cons_append,
        fetchLoop_cons_success oracle t a (pre' ++ b :: post) fs [] bytes hex hbytes,
        fetchLoop_att_shift]
    have habs' : ∀ x ∈ pre' ++ b :: post,
        fsLookup (fsWrite fs (destPath t a) bytes) (destPath t x) = none := by
      intro x hx
      rw [fsLookup_fsWrite, if_neg (fun hp => hne x hx hp.symm)]
      exact habs x (List.mem_cons_of_mem a hx)
    have hok' : ∀ x ∈ pre', ∃ bytes,
        oracle (get_object_name_dict t x).bucket_name (objectName t x) =
          DlResult.success bytes :=
      fun x hx => hok x (List.mem_cons_of_mem a hx)
    obtain ⟨ih1, ih2, ih3⟩ := ih post (fsWrite fs (destPath t a) bytes) hpw' habs' hok'
    refine ⟨?_, by simpa using ih2, by simpa using ih3⟩
    simp only [List.reverse_cons, List.reverse_nil, List.nil_append]
    rw [ih1, List.cons_append]
    rfl


lemma get_object_name_dict_satellite (t : DateTime) (b : Int) :
    (get_object_name_dict t b).satellite_code =
      (if dtLt t cutoverDate then "H08" else "H09") ∧
    (get_object_name_dict t b).bucket_name =
      (if dtLt t cutoverDate then HIMAWARI_8_BUCKET else HIMAWARI_9_BUCKET) :=
  ⟨rfl, rfl⟩

/-- C1: a timestamp strictly before 2022-10-28T00:00:00 yields satellite
code "H08" and bucket "noaa-himawari8"; a timestamp on or after that
instant yields "H09" and "noaa-himawari9" — a hard cutover selecting
exactly one epoch for any timestamp and band. -/
theorem satellite_cutover (t : DateTime) (b : Int) :
    (dtLt t cutoverDate = true →
      (get_object_name_dict t b).satellite_code = "H08" ∧
      (get_object_name_dict t b).bucket_name = "noaa-himawari8") ∧
    (dtLt t cutoverDate = false →
      (get_object_name_dict t b).satellite_code = "H09" ∧
      (get_object_name_dict t b).bucket_name = "noaa-himawari9") := by
  obtain ⟨hs, hb⟩ := get_object_name_dict_satellite t b
  constructor
  · intro h
    rw [hs, hb, h]
    exact ⟨rfl, rfl⟩
  · intro h
    rw [hs, hb, h]
    exact ⟨rfl, rfl⟩

theorem satellite_cutover_witness :
    dtLt ⟨2022, 10, 27, 23, 59, 0, 0⟩ cutoverDate = true ∧
    (get_object_name_dict ⟨2022, 10, 27, 23, 59, 0, 0⟩ 1).satellite_code = "H08" ∧
    (get_object_name_dict ⟨2022, 10, 27, 23, 59, 0, 0⟩ 1).bucket_name = "noaa-himawari8" ∧
    dtLt EXAMPLE_DATE cutoverDate = false ∧
    (get_object_name_dict EXAMPLE_DATE 1).satellite_code = "H09" ∧
    (get_object_name_dict EXAMPLE_DATE 1).bucket_name = "noaa-himawari9" :=
  ⟨by decide,
   ((satellite_cutover ⟨2022, 10, 27, 23, 59, 0, 0⟩ 1).1 (by decide)).1,
   ((satellite_cutover ⟨2022, 10, 27, 23, 59, 0, 0⟩ 1).1 (by decide)).2,
   by decide,
   ((satellite_cutover EXAMPLE_DATE 1).2 (by decide)).1,
   ((satellite_cutover EXAMPLE_DATE 1).2 (by decide)).2⟩

/-- C3: for every integer band, the resolution code is "R10" when the
band is at most 4 and "R20" when it is at least 5. -/
theorem resolution_rule (t : DateTime) (b : Int) :
    (b ≤ 4 → (get_object_name_dict t b).resolution = "R10") ∧
    (5 ≤ b → (get_object_name_dict t b).resolution = "R20") := by
  constructor
  · intro h
    show (if b ≤ 4 then "R10" else "R20") = "R10"
    rw [if_pos h]
  · intro h
    show (if b ≤ 4 then "R10" else "R20") = "R20"
    rw [if_neg (by omega)]

theorem resolution_rule_witness :
    ((4 : Int) ≤ 4 ∧ (get_object_name_dict EXAMPLE_DATE 4).resolution = "R10") ∧
    ((5 : Int) ≤ 5 ∧ (get_object_name_dict EXAMPLE_DATE 5).resolution = "R20") :=
  ⟨⟨by decide, (resolution_rule EXAMPLE_DATE 4).1 (by decide)⟩,
   ⟨by decide, (resolution_rule EXAMPLE_DATE 5).2 (by decide)⟩⟩

/-- C9: the satellite code and the bucket name always agree on the epoch:
"H08" exactly when the bucket is "noaa-himawari8", and "H09" exactly when
the bucket is "noaa-himawari9". -/
theorem epoch_consistency (t : DateTime) (b : Int) :
    ((get_object_name_dict t b).satellite_code = "H08" ↔
      (get_object_name_dict t b).bucket_name = "noaa-himawari8") ∧
    ((get_object_name_dict t b).satellite_code = "H09" ↔
      (get_object_name_dict t b).bucket_name = "noaa-himawari9") := by
  obtain ⟨hs, hb⟩ := get_object_name_dict_satellite t b
  rw [hs, hb]
  cases h : dtLt t cutoverDate
  · rw [if_neg (by simp [h]), if_neg (by simp [h])]
    refine ⟨⟨fun hc => absurd hc (by decide), fun hc => absurd hc (by decide)⟩,
      ⟨fun _ => rfl, fun _ => rfl⟩⟩
  · rw [if_pos rfl, if_pos rfl]
    refine ⟨⟨fun _ => rfl, fun _ => rfl⟩,
      ⟨fun hc => absurd hc (by decide), fun hc => absurd hc (by decide)⟩⟩

lemma dtLt_cutover_subminute (t₁ t₂ : DateTime)
    (hy : t₁.year = t₂.year) (hmo : t₁.month = t₂.month)
    (hd : t₁.day = t₂.day) (hh : t₁.hour = t₂.hour)
    (hmi : t₁.minute = t₂.minute) :
    dtLt t₁ cutoverDate = dtLt t₂ cutoverDate := by
  unfold dtLt
  rw [hy, hmo, hd, hh, hmi]
  simp [cutoverDate]

/-- C10: the Key Builder's output depends only on the minute-truncated
timestamp: two datetimes agreeing on year, month, day, hour and minute
produce equal dictionaries for every band. -/
theorem subminute_irrelevant (t₁ t₂ : DateTime) (b : Int)
    (hy : t₁.year = t₂.year) (hmo : t₁.month = t₂.month)
    (hd : t₁.day = t₂.day) (hh : t₁.hour = t₂.hour)
    (hmi : t₁.minute = t₂.minute) :
    get_object_name_dict t₁ b = get_object_name_dict t₂ b := by
  have hcut := dtLt_cutover_subminute t₁ t₂ hy hmo hd hh hmi
  unfold get_object_name_dict
  rw [hy, hmo, hd, hh, hmi, hcut]

theorem subminute_irrelevant_witness :
    (⟨2024, 4, 2, 16, 0, 30, 500⟩ : DateTime).year = EXAMPLE_DATE.year ∧
    (⟨2024, 4, 2, 16, 0, 30, 500⟩ : DateTime).month = EXAMPLE_DATE.month ∧
    (⟨2024, 4, 2, 16, 0, 30, 500⟩ : DateTime).day = EXAMPLE_DATE.day ∧
    (⟨2024, 4, 2, 16, 0, 30, 500⟩ : DateTime).hour = EXAMPLE_DATE.hour ∧
    (⟨2024, 4, 2, 16, 0, 30, 500⟩ : DateTime).minute = EXAMPLE_DATE.minute ∧
    get_object_name_dict ⟨2024, 4, 2, 16, 0, 30, 500⟩ 4 =
      get_object_name_dict EXAMPLE_DATE 4 :=
  ⟨rfl, rfl, rfl, rfl, rfl,
   subminute_irrelevant ⟨2024, 4, 2, 16, 0, 30, 500⟩ EXAMPLE_DATE 4
     rfl rfl rfl rfl rfl⟩


/-- C2: the object key equals the fixed template with the zero-padded
date/time fields, the satellite code, the band code and the resolution
substituted; in particular the two end-to-end examples of the spec. -/
theorem objectName_template (t : DateTime) (b : Int) :
    (objectName t b =
      "AHI-L1b-FLDK/" ++ natDecimal t.year ++ "/" ++ zpad2 t.month ++ "/" ++
      zpad2 t.day ++ "/" ++ zpad2 t.hour ++ zpad2 t.minute ++ "/HS_" ++
      satCode t ++ "_" ++ natDecimal t.year ++ zpad2 t.month ++ zpad2 t.day ++
      "_" ++ zpad2 t.hour ++ zpad2 t.minute ++ "_B" ++ int02d b ++ "_FLDK_" ++
      resCode b ++ "_S0101.DAT.bz2") ∧
    objectName EXAMPLE_DATE 4 =
      "AHI-L1b-FLDK/2024/04/02/1600/HS_H09_20240402_1600_B04_FLDK_R10_S0101.DAT.bz2" ∧
    (get_object_name_dict EXAMPLE_DATE 4).bucket_name = "noaa-himawari9" ∧
    (get_object_name_dict ⟨2022, 10, 27, 23, 59, 0, 0⟩ 6).satellite_code = "H08" ∧
    (get_object_name_dict ⟨2022, 10, 27, 23, 59, 0, 0⟩ 6).bucket_name =
      "noaa-himawari8" ∧
    (get_object_name_dict ⟨2022, 10, 27, 23, 59, 0, 0⟩ 6).resolution = "R20" := by
  refine ⟨?_, by decide, by decide, by decide, by decide, by decide⟩
  apply String.ext
  simp [objectName, formatObjectName, get_object_name_dict, satCode, resCode,
    String.data_append, List.append_assoc]

/-- C8 counterexample: at band 100 the band code segment is "B100", which
has 4 characters, not 3. -/
theorem bandCode_three_chars_cex :
    (get_object_name_dict EXAMPLE_DATE 100).band = "B100" ∧
    ¬ ((get_object_name_dict EXAMPLE_DATE 100).band.length = 3) := by
  constructor
  · decide
  · decide

/-- C8 (amended): for every integer band, the band code is "B" followed by
the `%02d` rendering of the band; for bands between 0 and 99 this is "B"
plus the two zero-padded decimal digits, and the segment has exactly 3
characters. -/
theorem bandCode_format (t : DateTime) (b : Int) :
    (get_object_name_dict t b).band = "B" ++ int02d b ∧
    (0 ≤ b → b ≤ 99 →
      (get_object_name_dict t b).band =
        ⟨['B', Nat.digitChar (b.toNat / 10), Nat.digitChar (b.toNat % 10)]⟩ ∧
      (get_object_name_dict t b).band.length = 3) := by
  refine ⟨rfl, ?_⟩
  intro h0 h99
  have hband : (get_object_name_dict t b).band = "B" ++ int02d b := rfl
  have hio : int02d b = zpad2 b.toNat := by
    unfold int02d
    rw [if_neg (by omega)]
  have hz : (zpad2 b.toNat).data =
      [Nat.digitChar (b.toNat / 10), Nat.digitChar (b.toNat % 10)] :=
    zpad2_eq (by omega)
  have hdata : (get_object_name_dict t b).band.data =
      ['B', Nat.digitChar (b.toNat / 10), Nat.digitChar (b.toNat % 10)] := by
    rw [hband, hio, String.data_append, hz]
    rfl
  constructor
  · exact String.ext hdata
  · show (get_object_name_dict t b).band.data.length = 3
    rw [hdata]
    rfl

theorem bandCode_format_witness :
    (get_object_name_dict EXAMPLE_DATE 4).band = "B" ++ int02d 4 ∧
    (0 : Int) ≤ 4 ∧ (4 : Int) ≤ 99 ∧
    (get_object_name_dict EXAMPLE_DATE 4).band =
      ⟨['B', Nat.digitChar ((4 : Int).toNat / 10), Nat.digitChar ((4 : Int).toNat % 10)]⟩ ∧
    (get_object_name_dict EXAMPLE_DATE 4).band.length = 3 :=
  ⟨(bandCode_format EXAMPLE_DATE 4).1, by decide, by decide,
   ((bandCode_format EXAMPLE_DATE 4).2 (by decide) (by decide)).1,
   ((bandCode_format EXAMPLE_DATE 4).2 (by decide) (by decide)).2⟩

/-- C4: starting from a state where none of the six destination files
exist, with all downloads succeeding, the first invocation attempts
exactly the six bands (in order) and the second invocation attempts
nothing, because all six destination files exist after the first call. -/
theorem fetcher_idempotent (oracle : Oracle) (t : DateTime) (fs : FS)
    (hok : ∀ bkt key, ∃ bytes, oracle bkt key = DlResult.success bytes)
    (habs : ∀ b ∈ bandRange, fsLookup fs (destPath t b) = none) :
    (download_files_for_date oracle t fs).2.1 = bandRange ∧
    (download_files_for_date oracle t fs).2.1.length = 6 ∧
    (download_files_for_date oracle t fs).2.2 = none ∧
    (∀ b ∈ bandRange,
      (fsLookup (download_files_for_date oracle t fs).1 (destPath t b)).isSome) ∧
    (download_files_for_date oracle t
      (download_files_for_date oracle t fs).1).2.1 = [] ∧
    (download_files_for_date oracle t
      (download_files_for_date oracle t fs).1).2.2 = none := by
  obtain ⟨h1, h2, h3, _⟩ :=
    fetchLoop_all_absent oracle t hok bandRange fs (destPath_pairwise_ne t) habs
  have hsecond := fetchLoop_all_present oracle t bandRange
    (fetchLoop oracle t bandRange fs []).1 h3
  unfold download_files_for_date
  refine ⟨h1, by rw [h1]; rfl, h2, h3, ?_, ?_⟩
  · rw [hsecond]
  · rw [hsecond]

/-- A concrete always-succeeding client. -/
def allOkOracle : Oracle := fun _ _ => DlResult.success []

theorem fetcher_idempotent_witness :
    (∀ bkt key, ∃ bytes, allOkOracle bkt key = DlResult.success bytes) ∧
    (∀ b ∈ bandRange, fsLookup ([] : FS) (destPath EXAMPLE_DATE b) = none) ∧
    (download_files_for_date allOkOracle EXAMPLE_DATE []).2.1.length = 6 ∧
    (download_files_for_date allOkOracle EXAMPLE_DATE
      (download_files_for_date allOkOracle EXAMPLE_DATE []).1).2.1 = [] :=
  ⟨fun _ _ => ⟨[], rfl⟩, fun _ _ => rfl,
   (fetcher_idempotent allOkOracle EXAMPLE_DATE []
     (fun _ _ => ⟨[], rfl⟩) (fun _ _ => rfl)).2.1,
   (fetcher_idempotent allOkOracle EXAMPLE_DATE []
     (fun _ _ => ⟨[], rfl⟩) (fun _ _ => rfl)).2.2.2.2.1⟩

/-- C5: a band of the fixed sequence whose destination file already
exists is not downloaded and its contents are unchanged by the run, and
conversely any band the run attempts had an absent destination file. -/
theorem fetcher_skips_existing (oracle : Oracle) (t : DateTime) (fs : FS)
    (b : Int) (hb : b ∈ bandRange) :
    (∀ c, fsLookup fs (destPath t b) = some c →
      b ∉ (download_files_for_date oracle t fs).2.1 ∧
      fsLookup (download_files_for_date oracle t fs).1 (destPath t b) = some c) ∧
    (b ∈ (download_files_for_date oracle t fs).2.1 →
      fsLookup fs (destPath t b) = none) := by
  constructor
  · intro c hc
    exact fetchLoop_skip oracle t bandRange fs b c (destPath_pairwise_ne t) hb hc
  · intro hmem
    exact fetchLoop_attempted_absent oracle t bandRange fs b hmem

theorem fetcher_skips_existing_witness :
    (3 : Int) ∈ bandRange ∧
    ((∀ c, fsLookup [(destPath EXAMPLE_DATE 3, [7])] (destPath EXAMPLE_DATE 3) = some c →
      (3 : Int) ∉ (download_files_for_date allOkOracle EXAMPLE_DATE
        [(destPath EXAMPLE_DATE 3, [7])]).2.1 ∧
      fsLookup (download_files_for_date allOkOracle EXAMPLE_DATE
        [(destPath EXAMPLE_DATE 3, [7])]).1 (destPath EXAMPLE_DATE 3) = some c) ∧
    ((3 : Int) ∈ (download_files_for_date allOkOracle EXAMPLE_DATE
        [(destPath EXAMPLE_DATE 3, [7])]).2.1 →
      fsLookup [(destPath EXAMPLE_DATE 3, [7])] (destPath EXAMPLE_DATE 3) = none)) :=
  ⟨by decide,
   fetcher_skips_existing allOkOracle EXAMPLE_DATE
     [(destPath EXAMPLE_DATE 3, [7])] 3 (by decide)⟩


/-- C7: when the download of band `b` fails (earlier bands succeeding and
no file present initially), the error propagates out of the Fetcher, the
bands after `b` are not attempted, the partially written bytes remain at
`b`'s destination, and any subsequent invocation for the same timestamp
skips band `b` as already downloaded. -/
theorem fetcher_error_propagation (oracle : Oracle) (t : DateTime) (fs : FS)
    (b : Int) (e : Nat) (w : List Nat) (hb : b ∈ bandRange)
    (habs : ∀ x ∈ bandRange, fsLookup fs (destPath t x) = none)
    (hok : ∀ x ∈ bandRange, x < b → ∃ bytes,
      oracle (get_object_name_dict t x).bucket_name (objectName t x) =
        DlResult.success bytes)
    (hfail : oracle (get_object_name_dict t b).bucket_name (objectName t b) =
      DlResult.failure e w) :
    (download_files_for_date oracle t fs).2.2 = some e ∧
    (download_files_for_date oracle t fs).2.1 =
      bandRange.filter (fun x => x ≤ b) ∧
    fsLookup (download_files_for_date oracle t fs).1 (destPath t b) = some w ∧
    ∀ oracle₂ : Oracle,
      b ∉ (download_files_for_date oracle₂ t
        (download_files_for_date oracle t fs).1).2.1 := by
  unfold download_files_for_date
  have hb' : b = 1 ∨ b = 2 ∨ b = 3 ∨ b = 4 ∨ b = 5 ∨ b = 6 := by
    simpa [bandRange] using hb
  rcases hb' with rfl | rfl | rfl | rfl | rfl | rfl
  · obtain ⟨h1, h2, h3⟩ := fetchLoop_fail oracle t 1 e w hfail [] [2, 3, 4, 5, 6] fs
      (destPath_pairwise_ne t) habs
      (by intro x hx; simp at hx)
    have h1' : (fetchLoop oracle t bandRange fs []).2.1 = [] ++ [1] := h1
    refine ⟨h2, by rw [h1']; decide, h3, ?_⟩
    intro oracle₂
    exact (fetchLoop_skip oracle₂ t bandRange
      (fetchLoop oracle t bandRange fs []).1 1 w
      (destPath_pairwise_ne t) (by decide) h3).1
  · obtain ⟨h1, h2, h3⟩ := fetchLoop_fail oracle t 2 e w hfail [1] [3, 4, 5, 6] fs
      (destPath_pairwise_ne t) habs
      (by
        intro x hx
        have hx' : x = 1 := by simpa using hx
        subst hx'
        exact hok 1 (by decide) (by decide))
    have h1' : (fetchLoop oracle t bandRange fs []).2.1 = [1] ++ [2] := h1
    refine ⟨h2, by rw [h1']; decide, h3, ?_⟩
    intro oracle₂
    exact (fetchLoop_skip oracle₂ t bandRange
      (fetchLoop oracle t bandRange fs []).1 2 w
      (destPath_pairwise_ne t) (by decide) h3).1
  · obtain ⟨h1, h2, h3⟩ := fetchLoop_fail oracle t 3 e w hfail [1, 2] [4, 5, 6] fs
      (destPath_pairwise_ne t) habs
      (by
        intro x hx
        have hx' : x = 1 ∨ x = 2 := by simpa using hx
        rcases hx' with rfl | rfl
        · exact hok 1 (by decide) (by decide)
        · exact hok 2 (by decide) (by decide))
    have h1' : (fetchLoop oracle t bandRange fs []).2.1 = [1, 2] ++ [3] := h1
    refine ⟨h2, by rw [h1']; decide, h3, ?_⟩
    intro oracle₂
    exact (fetchLoop_skip oracle₂ t bandRange
      (fetchLoop oracle t bandRange fs []).1 3 w
      (destPath_pairwise_ne t) (by decide) h3).1
  · obtain ⟨h1, h2, h3⟩ := fetchLoop_fail oracle t 4 e w hfail [1, 2, 3] [5, 6] fs
      (destPath_pairwise_ne t) habs
      (by
        intro x hx
        have hx' : x = 1 ∨ x = 2 ∨ x = 3 := by simpa using hx
        rcases hx' with rfl | rfl | rfl
        · exact hok 1 (by decide) (by decide)
        · exact hok 2 (by decide) (by decide)
        · exact hok 3 (by decide) (by decide))
    have h1' : (fetchLoop oracle t bandRange fs []).2.1 = [1, 2, 3] ++ [4] := h1
    refine ⟨h2, by rw [h1']; decide, h3, ?_⟩
    intro oracle₂
    exact (fetchLoop_skip oracle₂ t bandRange
      (fetchLoop oracle t bandRange fs []).1 4 w
      (destPath_pairwise_ne t) (by decide) h3).1
  · obtain ⟨h1, h2, h3⟩ := fetchLoop_fail oracle t 5 e w hfail [1, 2, 3, 4] [6] fs
      (destPath_pairwise_ne t) habs
      (by
        intro x hx
        have hx' : x = 1 ∨ x = 2 ∨ x = 3 ∨ x = 4 := by simpa using hx
        rcases hx' with rfl | rfl | rfl | rfl
        · exact hok 1 (by decide) (by decide)
        · exact hok 2 (by decide) (by decide)
        · exact hok 3 (by decide) (by decide)
        · exact hok 4 (by decide) (by decide))
    have h1' : (fetchLoop oracle t bandRange fs []).2.1 = [1, 2, 3, 4] ++ [5] := h1
    refine ⟨h2, by rw [h1']; decide, h3, ?_⟩
    intro oracle₂
    exact (fetchLoop_skip oracle₂ t bandRange
      (fetchLoop oracle t bandRange fs []).1 5 w
      (destPath_pairwise_ne t) (by decide) h3).1
  · obtain ⟨h1, h2, h3⟩ := fetchLoop_fail oracle t 6 e w hfail [1, 2, 3, 4, 5] [] fs
      (destPath_pairwise_ne t) habs
      (by
        intro x hx
        have hx' : x = 1 ∨ x = 2 ∨ x = 3 ∨ x = 4 ∨ x = 5 := by simpa using hx
        rcases hx' with rfl | rfl | rfl | rfl | rfl
        · exact hok 1 (by decide) (by decide)
        · exact hok 2 (by decide) (by decide)
        · exact hok 3 (by decide) (by decide)
        · exact hok 4 (by decide) (by decide)
        · exact hok 5 (by decide) (by decide))
    have h1' : (fetchLoop oracle t bandRange fs []).2.1 = [1, 2, 3, 4, 5] ++ [6] := h1
    refine ⟨h2, by rw [h1']; decide, h3, ?_⟩
    intro oracle₂
    exact (fetchLoop_skip oracle₂ t bandRange
      (fetchLoop oracle t bandRange fs []).1 6 w
      (destPath_pairwise_ne t) (by decide) h3).1


/-- A concrete client failing exactly on band 3's object for the example
date, with one byte already written. -/
def failAt3Oracle : Oracle := fun _ key =>
  if key = objectName EXAMPLE_DATE 3 then DlResult.failure 7 [1]
  else DlResult.success []

theorem fetcher_error_propagation_witness :
    (3 : Int) ∈ bandRange ∧
    (∀ x ∈ bandRange, fsLookup ([] : FS) (destPath EXAMPLE_DATE x) = none) ∧
    (∀ x ∈ bandRange, x < 3 → ∃ bytes,
      failAt3Oracle (get_object_name_dict EXAMPLE_DATE x).bucket_name
        (objectName EXAMPLE_DATE x) = DlResult.success bytes) ∧
    failAt3Oracle (get_object_name_dict EXAMPLE_DATE 3).bucket_name
      (objectName EXAMPLE_DATE 3) = DlResult.failure 7 [1] ∧
    (download_files_for_date failAt3Oracle EXAMPLE_DATE []).2.2 = some 7 ∧
    (download_files_for_date failAt3Oracle EXAMPLE_DATE []).2.1 =
      bandRange.filter (fun x => x ≤ (3 : Int)) ∧
    fsLookup (download_files_for_date failAt3Oracle EXAMPLE_DATE []).1
      (destPath EXAMPLE_DATE 3) = some [1] ∧
    ∀ oracle₂ : Oracle, (3 : Int) ∉ (download_files_for_date oracle₂ EXAMPLE_DATE
      (download_files_for_date failAt3Oracle EXAMPLE_DATE []).1).2.1 := by
  have hok : ∀ x ∈ bandRange, x < (3 : Int) → ∃ bytes,
      failAt3Oracle (get_object_name_dict EXAMPLE_DATE x).bucket_name
        (objectName EXAMPLE_DATE x) = DlResult.success bytes := by
    intro x hx hlt
    have hx6 : x = 1 ∨ x = 2 ∨ x = 3 ∨ x = 4 ∨ x = 5 ∨ x = 6 := by
      simpa [bandRange] using hx
    have hx' : x = 1 ∨ x = 2 := by omega
    rcases hx' with rfl | rfl
    · exact ⟨[], by decide⟩
    · exact ⟨[], by decide⟩
  have hfail : failAt3Oracle (get_object_name_dict EXAMPLE_DATE 3).bucket_name
      (objectName EXAMPLE_DATE 3) = DlResult.failure 7 [1] := by decide
  have main := fetcher_error_propagation failAt3Oracle EXAMPLE_DATE [] 3 7 [1]
    (by decide) (fun _ _ => rfl) hok hfail
  exact ⟨by decide, fun _ _ => rfl, hok, hfail, main.1, main.2.1, main.2.2.1,
    main.2.2.2⟩


lemma char_not_mem_append {c : Char} {a b : List Char} (ha : c ∉ a) (hb : c ∉ b) :
    c ∉ a ++ b := fun h => (List.mem_append.mp h).elim ha hb

lemma natDecimal_no_underscore {n : Nat} : '_' ∉ (natDecimal n).data := by
  intro h
  obtain ⟨d, hd, hc⟩ := natDecimal_digits h
  exact digitChar_ne_underscore hd hc.symm

lemma zpad2_no_underscore {n : Nat} : '_' ∉ (zpad2 n).data := by
  intro h
  obtain ⟨d, hd, hc⟩ := zpad2_digits h
  exact digitChar_ne_underscore hd hc.symm

lemma satCode_no_underscore (t : DateTime) : '_' ∉ (satCode t).data := by
  unfold satCode
  by_cases h : dtLt t cutoverDate = true
  · rw [if_pos h]; decide
  · rw [if_neg h]; decide

lemma int02d_no_underscore {i : Int} : '_' ∉ (int02d i).data := by
  unfold int02d
  by_cases h : i < 0
  · rw [if_pos h]
    rw [show ("-" ++ natDecimal i.natAbs).data = '-' :: (natDecimal i.natAbs).data from by
      rw [String.data_append]; rfl]
    intro hm
    rcases List.mem_cons.mp hm with hm | hm
    · exact absurd hm.symm (by decide)
    · exact natDecimal_no_underscore hm
  · rw [if_neg h]; exact zpad2_no_underscore

lemma int02d_injective : Function.Injective int02d := by
  intro a b h
  unfold int02d at h
  by_cases ha : a < 0 <;> by_cases hb : b < 0
  · rw [if_pos ha, if_pos hb] at h
    have hn := natDecimal_injective (str_append_cancel_left h)
    omega
  · exfalso
    rw [if_pos ha, if_neg hb] at h
    have hd := congrArg String.data h
    rw [String.data_append] at hd
    have hmem : '-' ∈ (zpad2 b.toNat).data := by
      rw [← hd]
      exact List.mem_append.mpr (Or.inl (by decide))
    obtain ⟨d, hd10, hc⟩ := zpad2_digits hmem
    exact digitChar_ne_minus hd10 hc.symm
  · exfalso
    rw [if_neg ha, if_pos hb] at h
    have hd := congrArg String.data h
    rw [String.data_append] at hd
    have hmem : '-' ∈ (zpad2 a.toNat).data := by
      rw [hd]
      exact List.mem_append.mpr (Or.inl (by decide))
    obtain ⟨d, hd10, hc⟩ := zpad2_digits hmem
    exact digitChar_ne_minus hd10 hc.symm
  · rw [if_neg ha, if_neg hb] at h
    have hn := zpad2_injective h
    omega

/-- The object file name in fully split form: literal head, then the
satellite code, the date block, the time block and the band code, each
ended by an underscore separator. -/
lemma keyFile_data (t : DateTime) (b : Int) :
    (keyFile t b).data =
      'H' :: 'S' :: '_' :: ((satCode t).data ++ '_' ::
        (((natDecimal t.year).data ++ ((zpad2 t.month).data ++ (zpad2 t.day).data)) ++ '_' ::
          (((zpad2 t.hour).data ++ (zpad2 t.minute).data) ++ '_' ::
            ('B' :: ((int02d b).data ++ '_' ::
              ("FLDK_" ++ resCode b ++ "_S0101.DAT.bz2").data))))) := by
  simp [keyFile, String.data_append, List.append_assoc]


/-- C6: within one satellite epoch the object-key mapping is injective on
(minute-granularity timestamp, band): distinct valid (timestamp, band)
pairs produce distinct object keys. -/
theorem objectName_injective (t₁ t₂ : DateTime) (b₁ b₂ : Int)
    (h₁ : t₁.Valid) (h₂ : t₂.Valid)
    (hs₁ : t₁.second = 0) (hu₁ : t₁.microsecond = 0)
    (hs₂ : t₂.second = 0) (hu₂ : t₂.microsecond = 0)
    (hep : sameEpoch t₁ t₂)
    (hne : (t₁, b₁) ≠ (t₂, b₂)) :
    objectName t₁ b₁ ≠ objectName t₂ b₂ := by
  intro heq
  apply hne
  obtain ⟨-, -, hmo₁a, hmo₁b, hday₁a, hday₁b, hh₁, hmi₁, -, -⟩ := h₁
  obtain ⟨-, -, hmo₂a, hmo₂b, hday₂a, hday₂b, hh₂, hmi₂, -, -⟩ := h₂
  have hkey : keyFile t₁ b₁ = keyFile t₂ b₂ := by
    rw [← basename_objectName t₁ b₁, ← basename_objectName t₂ b₂, heq]
  have hd := congrArg String.data hkey
  rw [keyFile_data, keyFile_data] at hd
  simp only [List.cons.injEq] at hd
  obtain ⟨-, -, -, hd⟩ := hd
  obtain ⟨hsat, hd⟩ := sep_split '_' _ _ _ _
    (satCode_no_underscore t₁) (satCode_no_underscore t₂) hd
  have hymd₁ : '_' ∉ (natDecimal t₁.year).data ++
      ((zpad2 t₁.month).data ++ (zpad2 t₁.day).data) :=
    char_not_mem_append natDecimal_no_underscore
      (char_not_mem_append zpad2_no_underscore zpad2_no_underscore)
  have hymd₂ : '_' ∉ (natDecimal t₂.year).data ++
      ((zpad2 t₂.month).data ++ (zpad2 t₂.day).data) :=
    char_not_mem_append natDecimal_no_underscore
      (char_not_mem_append zpad2_no_underscore zpad2_no_underscore)
  obtain ⟨hymd, hd⟩ := sep_split '_' _ _ _ _ hymd₁ hymd₂ hd
  have hlmd : ((zpad2 t₁.month).data ++ (zpad2 t₁.day).data).length =
      ((zpad2 t₂.month).data ++ (zpad2 t₂.day).data).length := by
    rw [List.length_append, List.length_append, zpad2_length (by omega),
      zpad2_length (by omega), zpad2_length (by omega), zpad2_length (by omega)]
  obtain ⟨hyear, hmd⟩ := List.append_inj' hymd hlmd
  have hyear' : t₁.year = t₂.year := natDecimal_injective (String.ext hyear)
  obtain ⟨hmo, hday⟩ := List.append_inj hmd
    (by rw [zpad2_length (by omega), zpad2_length (by omega)])
  have hmo' : t₁.month = t₂.month := zpad2_injective (String.ext hmo)
  have hday' : t₁.day = t₂.day := zpad2_injective (String.ext hday)
  have hhm₁ : '_' ∉ (zpad2 t₁.hour).data ++ (zpad2 t₁.minute).data :=
    char_not_mem_append zpad2_no_underscore zpad2_no_underscore
  have hhm₂ : '_' ∉ (zpad2 t₂.hour).data ++ (zpad2 t₂.minute).data :=
    char_not_mem_append zpad2_no_underscore zpad2_no_underscore
  obtain ⟨hhm, hd⟩ := sep_split '_' _ _ _ _ hhm₁ hhm₂ hd
  obtain ⟨hh, hmi⟩ := List.append_inj hhm
    (by rw [zpad2_length (by omega), zpad2_length (by omega)])
  have hh' : t₁.hour = t₂.hour := zpad2_injective (String.ext hh)
  have hmi' : t₁.minute = t₂.minute := zpad2_injective (String.ext hmi)
  simp only [List.cons.injEq] at hd
  obtain ⟨-, hd⟩ := hd
  obtain ⟨hband, -⟩ := sep_split '_' _ _ _ _
    (@int02d_no_underscore b₁) (@int02d_no_underscore b₂) hd
  have hband' : b₁ = b₂ := int02d_injective (String.ext hband)
  have ht : t₁ = t₂ :=
    DateTime.ext hyear' hmo' hday' hh' hmi' (by rw [hs₁, hs₂]) (by rw [hu₁, hu₂])
  rw [Prod.mk.injEq]
  exact ⟨ht, hband'⟩

theorem objectName_injective_witness :
    (⟨2024, 4, 2, 16, 0, 0, 0⟩ : DateTime).Valid ∧
    EXAMPLE_DATE.Valid ∧
    sameEpoch ⟨2024, 4, 2, 16, 0, 0, 0⟩ EXAMPLE_DATE ∧
    ((⟨2024, 4, 2, 16, 0, 0, 0⟩ : DateTime), (4 : Int)) ≠ (EXAMPLE_DATE, 5) ∧
    objectName ⟨2024, 4, 2, 16, 0, 0, 0⟩ 4 ≠ objectName EXAMPLE_DATE 5 :=
  ⟨by decide, by decide, by decide, by decide,
   objectName_injective ⟨2024, 4, 2, 16, 0, 0, 0⟩ EXAMPLE_DATE 4 5
     (by decide) (by decide) rfl rfl rfl rfl (by decide) (by decide)⟩

end Himawari
